import Mathlib

set_option maxHeartbeats 1000000

/-!
Verification of `gtk2_ardour/port_group.cc` (PortGroup / PortGroupList).

This file is a shallow embedding of the data model and operations of the
port-grouping module: bundles of channels, bundle records inside a
`PortGroup`, the duplicate-removal and dedup-on-add logic, the
`PortGroupList` signal-suspension machinery and the `gather` algorithm,
together with theorems about them.

Conventions of the embedding:
* machine integers become `Nat`;
* C++ strings become Lean `String`s, manipulated through their character
  lists (`String.data`) so that everything reduces in the kernel;
* shared-pointer identity of a `Bundle` becomes an explicit `bid` field
  (two distinct heap objects get distinct ids);
* signal emission becomes an explicit list of events returned next to the
  new state; a signal with no subscriber produces an event that is dropped
  by the caller, exactly where the source has no connected slot;
* assertion failure becomes `Option.none`.

Types and functions that live outside `src/` (libs/ardour's `Bundle`,
`ChanCount`, pbd's natural sort) are modelled from the spec and marked so
in their doc comments.
-/

/-- Port data types (ARDOUR::DataType): AUDIO and MIDI.  The `DataType::NIL`
value, used as an "any type" marker, is modelled as `Option DataType = none`
at its use sites. -/
inductive DataType where
  | Audio
  | Midi
deriving DecidableEq

/-- Modelled from the spec: `ChanCount` (per-type channel counts) lives in
libs/ardour, outside `src/`.  It stores one count per data type. -/
structure ChanCount where
  audio : Nat
  midi : Nat
deriving DecidableEq

/-- The count for one data type (`ChanCount::n (t)`). -/
def ChanCount.get (c : ChanCount) (t : DataType) : Nat :=
  match t with
  | .Audio => c.audio
  | .Midi => c.midi

/-- `ChanCount::n_total ()`: the sum over all data types. -/
def ChanCount.n_total (c : ChanCount) : Nat :=
  c.audio + c.midi

/-- Modelled from the spec: `ChanCount::operator<` — smaller or equal for
every data type and not equal ("strictly larger bundle" in the spec's
words, read pointwise). -/
def ChanCount.lt (a b : ChanCount) : Bool :=
  decide (a.audio ≤ b.audio) && decide (a.midi ≤ b.midi) && !(decide (a = b))

/-- Modelled from the spec: `ChanCount::operator>` as the flip of `<`. -/
def ChanCount.gt (a b : ChanCount) : Bool :=
  ChanCount.lt b a

/-- One channel of a bundle: display name, data type, and the list of
concrete port names backing it. -/
structure Channel where
  cname : String
  ctype : DataType
  ports : List String
deriving DecidableEq

/-- A bundle (libs/ardour `Bundle`, consumed by this module): `bid` models
shared-pointer identity, `bname` the name, `dir_inputs` the
`ports_are_inputs()` flag, and `channels` the ordered channel list. -/
structure Bundle where
  bid : Nat
  bname : String
  dir_inputs : Bool
  channels : List Channel
deriving DecidableEq

/-- `Bundle::nchannels ()`: channels counted per data type. -/
def Bundle.nchannels (b : Bundle) : ChanCount :=
  ⟨(b.channels.filter (fun c => c.ctype = .Audio)).length,
   (b.channels.filter (fun c => c.ctype = .Midi)).length⟩

/-- `Bundle::channel_ports (k)`: the port list of channel `k` (used only for
`k` below the channel count). -/
def Bundle.channel_ports (b : Bundle) (k : Nat) : List String :=
  (b.channels.getD k ⟨"", .Audio, []⟩).ports

/-- All port names of a bundle, in channel order. -/
def Bundle.ports_list (b : Bundle) : List String :=
  (b.channels.map Channel.ports).flatten

/-- Modelled from the spec: `Bundle::has_same_ports` (libs/ardour, outside
`src/`) — structural identity, "two bundles are same if their underlying
port-name sets match regardless of order". -/
def Bundle.has_same_ports (a b : Bundle) : Bool :=
  a.ports_list.all (fun p => decide (p ∈ b.ports_list)) &&
  b.ports_list.all (fun p => decide (p ∈ a.ports_list))

/-- Modelled from the spec: `Bundle::offers_port_alone (p)` — some channel
consists of exactly the port `p` and nothing else. -/
def Bundle.offers_port_alone (b : Bundle) (p : String) : Bool :=
  b.channels.any (fun c => decide (c.ports = [p]))

/-- `Bundle::set_name`. -/
def Bundle.set_name (b : Bundle) (n : String) : Bundle :=
  { b with bname := n }

/-- `Bundle::add_channel (name, type)`: appends a channel with no ports yet. -/
def Bundle.add_channel (b : Bundle) (n : String) (t : DataType) : Bundle :=
  { b with channels := b.channels ++ [⟨n, t, []⟩] }

/-- `Bundle::add_channel (name, type, port)`: appends a channel backed by one
port. -/
def Bundle.add_channel_port (b : Bundle) (n : String) (t : DataType) (p : String) : Bundle :=
  { b with channels := b.channels ++ [⟨n, t, [p]⟩] }

/-- Helper for `Bundle.set_port`: replace the port list of channel `j`. -/
def setPortAux : List Channel → Nat → String → List Channel
  | [], _, _ => []
  | c :: cs, 0, p => { c with ports := [p] } :: cs
  | c :: cs, Nat.succ n, p => c :: setPortAux cs n p

/-- Modelled from the spec: `Bundle::set_port (j, p)` — in the synthesis path
each channel maps to exactly one concrete port. -/
def Bundle.set_port (b : Bundle) (j : Nat) (p : String) : Bundle :=
  { b with channels := setPortAux b.channels j p }

/-- The two signals this module emits: the generic "changed" and the
"bundle changed" carrying a `Bundle::Change` payload (a bitmask, `Nat`
here, `0` meaning no change). -/
inductive PGEvent where
  | changed
  | bundleChanged (c : Nat)
deriving DecidableEq

/-- `PortGroup::BundleRecord`: bundle, optional owning-IO id (the weak
pointer), colour, and whether a colour was given.  `subscribed` mirrors the
`changed_connection` made when the record is constructed. -/
structure BundleRecord where
  bundle : Bundle
  io_id : Option Nat
  colour : Nat
  has_colour : Bool
  subscribed : Bool
deriving DecidableEq

/-- The state of a `PortGroup`: its name and its ordered record list. -/
structure PGState where
  gname : String
  bundles : List BundleRecord
deriving DecidableEq

/-- `PortGroup::add_bundle_internal`: with `allow_dups = false`, a bundle
whose port set structurally matches an existing record's is not added (no
record, no subscription, no event); otherwise a record is appended, a
change subscription made, and one "changed" fires. -/
def PortGroup.add_bundle_internal (g : PGState) (b : Bundle) (ior : Option Nat)
    (has_colour : Bool) (colour : Nat) (allow_dups : Bool) : PGState × List PGEvent :=
  if !allow_dups && g.bundles.any (fun r => b.has_same_ports r.bundle) then
    (g, [])
  else
    ({ g with bundles := g.bundles ++ [⟨b, ior, colour, has_colour, true⟩] },
     [PGEvent.changed])

/-- `PortGroup::add_bundle (b, allow_dups)`. -/
def PortGroup.add_bundle (g : PGState) (b : Bundle) (allow_dups : Bool) : PGState × List PGEvent :=
  PortGroup.add_bundle_internal g b none false 0 allow_dups

/-- `PortGroup::add_bundle (b, io)`. -/
def PortGroup.add_bundle_with_io (g : PGState) (b : Bundle) (ior : Nat) : PGState × List PGEvent :=
  PortGroup.add_bundle_internal g b (some ior) false 0 false

/-- `PortGroup::add_bundle (b, io, colour)`. -/
def PortGroup.add_bundle_with_colour (g : PGState) (b : Bundle) (ior : Nat) (c : Nat) :
    PGState × List PGEvent :=
  PortGroup.add_bundle_internal g b (some ior) true c false

/-- The record scan of `PortGroup::remove_bundle`: drop the first record
whose bundle is the very object `b` (pointer identity = `bid`); "changed"
fires only when something was removed. -/
def removeBundleAux : List BundleRecord → Bundle → List BundleRecord × List PGEvent
  | [], _ => ([], [])
  | r :: rs, b =>
    if decide (r.bundle.bid = b.bid) then
      (rs, [PGEvent.changed])
    else
      (r :: (removeBundleAux rs b).1, (removeBundleAux rs b).2)

/-- `PortGroup::remove_bundle (b)`. -/
def PortGroup.remove_bundle (g : PGState) (b : Bundle) : PGState × List PGEvent :=
  ({ g with bundles := (removeBundleAux g.bundles b).1 }, (removeBundleAux g.bundles b).2)

/-- `PortGroup::clear ()`: removes every record and fires "changed"
unconditionally. -/
def PortGroup.clear (g : PGState) : PGState × List PGEvent :=
  ({ g with bundles := [] }, [PGEvent.changed])

/-- `PortGroup::has_port (p)`: some member bundle offers `p` alone. -/
def PortGroup.has_port (g : PGState) (p : String) : Bool :=
  g.bundles.any (fun r => r.bundle.offers_port_alone p)

/-- `PortGroup::only_bundle ()`: asserts exactly one record; the assertion
failure is modelled as `none`. -/
def PortGroup.only_bundle (g : PGState) : Option Bundle :=
  match g.bundles with
  | [r] => some r.bundle
  | _ => none

/-- `PortGroup::total_channels ()`. -/
def PortGroup.total_channels (g : PGState) : ChanCount :=
  g.bundles.foldl (fun n r => ⟨n.audio + r.bundle.nchannels.audio,
                               n.midi + r.bundle.nchannels.midi⟩) ⟨0, 0⟩

/-- The inner loops of `PortGroup::remove_duplicates`: record `i` is covered
by record `j` when `j`'s bundle has strictly more channels and every channel
of `i` has an identical port list to some channel of `j`. -/
def coveredBy (i j : BundleRecord) : Bool :=
  ChanCount.gt j.bundle.nchannels i.bundle.nchannels &&
  (List.range i.bundle.nchannels.n_total).all (fun k =>
    (List.range j.bundle.nchannels.n_total).any (fun l =>
      decide (i.bundle.channel_ports k = j.bundle.channel_ports l)))

/-- The iterator walk of `PortGroup::remove_duplicates`: `kept` is the part
of the list already passed over (never erased again), the second argument
what remains; the covering search runs over the whole current list. -/
def removeDupsGo : List BundleRecord → List BundleRecord → List BundleRecord
  | kept, [] => kept
  | kept, x :: rest =>
    if (kept ++ x :: rest).any (fun j => coveredBy x j) then
      removeDupsGo kept rest
    else
      removeDupsGo (kept ++ [x]) rest

/-- `PortGroup::remove_duplicates ()`: erases covered records; the source
fires no "changed" signal here. -/
def PortGroup.remove_duplicates (g : PGState) : PGState × List PGEvent :=
  ({ g with bundles := removeDupsGo [] g.bundles }, [])

/-- The signal-suspension state of a `PortGroupList`:
`_signals_suspended`, `_pending_change`, `_pending_bundle_change`. -/
structure SigState where
  suspended : Bool
  pending_change : Bool
  pending_bundle_change : Nat
deriving DecidableEq

/-- `PortGroupList::emit_changed ()`: while suspended only the pending flag
is set; otherwise "changed" fires. -/
def PortGroupList.emit_changed (s : SigState) : SigState × List PGEvent :=
  if s.suspended then
    ({ s with pending_change := true }, [])
  else
    (s, [PGEvent.changed])

/-- `PortGroupList::emit_bundle_changed (c)`: while suspended the payload
overwrites the pending one; otherwise "bundle changed" fires. -/
def PortGroupList.emit_bundle_changed (s : SigState) (c : Nat) : SigState × List PGEvent :=
  if s.suspended then
    ({ s with pending_bundle_change := c }, [])
  else
    (s, [PGEvent.bundleChanged c])

/-- `PortGroupList::suspend_signals ()`. -/
def PortGroupList.suspend_signals (s : SigState) : SigState :=
  { s with suspended := true }

/-- `PortGroupList::resume_signals ()`: fires the pending "changed" (if
set), then the pending "bundle changed" (if non-zero), clearing each, then
drops the suspension flag. -/
def PortGroupList.resume_signals (s : SigState) : SigState × List PGEvent :=
  (⟨false, false, 0⟩,
   (if s.pending_change then [PGEvent.changed] else []) ++
   (if s.pending_bundle_change ≠ 0 then [PGEvent.bundleChanged s.pending_bundle_change] else []))

/-- A mutation's effect on the signal state while the list is suspended or
not: each mutating operation routes its notification through
`emit_changed` / `emit_bundle_changed`. -/
inductive SigOp where
  | emitChanged
  | emitBundleChanged (c : Nat)
deriving DecidableEq

/-- Apply one notification call to the signal state. -/
def applySigOp (s : SigState) (op : SigOp) : SigState × List PGEvent :=
  match op with
  | .emitChanged => PortGroupList.emit_changed s
  | .emitBundleChanged c => PortGroupList.emit_bundle_changed s c

/-- Run a sequence of notification calls, concatenating the events they
fire. -/
def runSigOps : SigState → List SigOp → SigState × List PGEvent
  | s, [] => (s, [])
  | s, op :: ops =>
    ((runSigOps (applySigOp s op).1 ops).1,
     (applySigOp s op).2 ++ (runSigOps (applySigOp s op).1 ops).2)

/-- Whether a notification call is a generic "changed" one. -/
def isEmitChanged : SigOp → Bool
  | .emitChanged => true
  | .emitBundleChanged _ => false

/-- The last "bundle changed" payload of a call sequence, starting from a
default: later payloads overwrite earlier ones. -/
def lastBundleChange : List SigOp → Nat → Nat
  | [], d => d
  | .emitChanged :: t, d => lastBundleChange t d
  | .emitBundleChanged c :: t, _ => lastBundleChange t c

/-- Number of generic "changed" events in an event list. -/
def countChanged (l : List PGEvent) : Nat :=
  l.countP (fun e => decide (e = PGEvent.changed))

/-- The state of a `PortGroupList`: the owned groups (all of them connected
to the list's forwarding slots by `add_group`) and the signal state. -/
structure PGLState where
  groups : List PGState
  sig : SigState
deriving DecidableEq

/-- `PortGroupList::empty ()`. -/
def PortGroupList.empty (st : PGLState) : Bool :=
  st.groups.isEmpty

/-- `PortGroupList::bundles ()`: the flattened record list over all groups. -/
def PortGroupList.bundles (st : PGLState) : List BundleRecord :=
  (st.groups.map PGState.bundles).flatten

/-- `PortGroupList::clear ()`: drops all groups and their subscriptions and
calls `emit_changed`. -/
def PortGroupList.clear (st : PGLState) : PGLState × List PGEvent :=
  (⟨[], (PortGroupList.emit_changed st.sig).1⟩, (PortGroupList.emit_changed st.sig).2)

/-- `PortGroupList::add_group (g)`: appends the group, connects its two
signals to the list's forwarding slots, and calls `emit_changed`. -/
def PortGroupList.add_group (st : PGLState) (g : PGState) : PGLState × List PGEvent :=
  (⟨st.groups ++ [g], (PortGroupList.emit_changed st.sig).1⟩,
   (PortGroupList.emit_changed st.sig).2)

/-- `PortGroupList::add_group_if_not_empty (g)`. -/
def PortGroupList.add_group_if_not_empty (st : PGLState) (g : PGState) : PGLState × List PGEvent :=
  if g.bundles.isEmpty then (st, [])
  else PortGroupList.add_group st g

/-- Forward a group's events into the list's slots: a group-level "changed"
reaches `emit_changed`, a group-level "bundle changed" reaches
`emit_bundle_changed` (this is the connection `add_group` makes). -/
def forwardEvents : SigState → List PGEvent → SigState × List PGEvent
  | s, [] => (s, [])
  | s, PGEvent.changed :: t =>
    ((forwardEvents (PortGroupList.emit_changed s).1 t).1,
     (PortGroupList.emit_changed s).2 ++ (forwardEvents (PortGroupList.emit_changed s).1 t).2)
  | s, PGEvent.bundleChanged c :: t =>
    ((forwardEvents (PortGroupList.emit_bundle_changed s c).1 t).1,
     (PortGroupList.emit_bundle_changed s c).2 ++
       (forwardEvents (PortGroupList.emit_bundle_changed s c).1 t).2)

/-- One step of `PortGroupList::remove_bundle`'s loop: remove from the next
group; the group's own "changed" (it is connected) is forwarded to the
list. -/
def pglRemoveStep (b : Bundle) (acc : List PGState × SigState × List PGEvent) (g : PGState) :
    List PGState × SigState × List PGEvent :=
  (acc.1 ++ [(PortGroup.remove_bundle g b).1],
   (forwardEvents acc.2.1 (PortGroup.remove_bundle g b).2).1,
   acc.2.2 ++ (forwardEvents acc.2.1 (PortGroup.remove_bundle g b).2).2)

/-- `PortGroupList::remove_bundle (b)`: forwards the removal to every owned
group, then calls `emit_changed` unconditionally. -/
def PortGroupList.remove_bundle (st : PGLState) (b : Bundle) : PGLState × List PGEvent :=
  (⟨(st.groups.foldl (pglRemoveStep b) ([], st.sig, [])).1,
    (PortGroupList.emit_changed (st.groups.foldl (pglRemoveStep b) ([], st.sig, [])).2.1).1⟩,
   (st.groups.foldl (pglRemoveStep b) ([], st.sig, [])).2.2 ++
     (PortGroupList.emit_changed (st.groups.foldl (pglRemoveStep b) ([], st.sig, [])).2.1).2)

/-- `std::string::substr (0, n)` on characters. -/
def strTake (s : String) (n : Nat) : String :=
  ⟨s.data.take n⟩

/-- `std::string::substr (n)` on characters. -/
def strDrop (s : String) (n : Nat) : String :=
  ⟨s.data.drop n⟩

/-- `std::string::length ()` on characters. -/
def strLen (s : String) : Nat :=
  s.data.length

/-- `s.find (c) != npos`. -/
def strContainsChar (s : String) (c : Char) : Bool :=
  s.data.contains c

/-- `boost::to_lower`, character by character. -/
def strToLower (s : String) : String :=
  ⟨s.data.map Char.toLower⟩

/-- Whether `need` is a prefix of `hay` (character lists). -/
def hasPrefixL : List Char → List Char → Bool
  | _, [] => true
  | [], _ :: _ => false
  | a :: as, b :: bs => a = b && hasPrefixL as bs

/-- `hay.find (need) != npos`: substring search, true for an empty needle
(as `std::string::find` finds `""` at position 0). -/
def containsSubL (need : List Char) : List Char → Bool
  | [] => hasPrefixL [] need
  | a :: t => hasPrefixL (a :: t) need || containsSubL need t

/-- `PortGroupList::port_has_prefix (n, p)`: `n.substr (0, p.length()) == p`. -/
def port_starts_with (n pfx : String) : Bool :=
  decide (n.data.take pfx.data.length = pfx.data)

/-- The characters of `s` up to and including the first occurrence of `c`. -/
def takeUpToSep : List Char → Char → List Char
  | [], _ => []
  | a :: as, c => if a = c then [a] else a :: takeUpToSep as c

/-- `s.substr (0, s.find_first_of (sep) + 1)` for a one-character `sep`:
when `sep` does not occur, `find_first_of` is `npos` and `npos + 1` wraps
to `0`, so the result is the empty string. -/
def prefix_through (s : String) (c : Char) : String :=
  if strContainsChar s c then ⟨takeUpToSep s.data c⟩ else ""

/-- `PortGroupList::common_prefix_before (p, s)`: empty unless the first
name contains the separator and every other name starts with the first
name's prefix up to and including it. -/
def common_prefix_before (p : List String) (c : Char) : String :=
  match p with
  | [] => ""
  | p0 :: rest =>
    if !strContainsChar p0 c then ""
    else if rest.all (fun q => port_starts_with q (prefix_through p0 c)) then
      prefix_through p0 c
    else ""

/-- `PortGroupList::common_prefix (p)`: the common prefix ending in `/`,
else the one ending in `:`, else empty. -/
def common_prefix_of (p : List String) : String :=
  if !(common_prefix_before p '/').data.isEmpty then common_prefix_before p '/'
  else if !(common_prefix_before p ':').data.isEmpty then common_prefix_before p ':'
  else ""

/-- Modelled from the spec: one token of pbd's natural sort — a maximal
digit run read as a number, or a single character. -/
def natTokens (l : List Char) : List (Nat ⊕ Char) :=
  let step := fun (acc : List (Nat ⊕ Char) × Option Nat) (c : Char) =>
    if c.isDigit then
      match acc.2 with
      | some n => (acc.1, some (n * 10 + (c.toNat - 48)))
      | none => (acc.1, some (c.toNat - 48))
    else
      match acc.2 with
      | some n => (acc.1 ++ [Sum.inl n, Sum.inr c], none)
      | none => (acc.1 ++ [Sum.inr c], none)
  match l.foldl step ([], none) with
  | (ts, some n) => ts ++ [Sum.inl n]
  | (ts, none) => ts

/-- Modelled from the spec: order on natural-sort tokens — numbers by
value, numbers before other characters, characters by code point. -/
def tokLt : (Nat ⊕ Char) → (Nat ⊕ Char) → Bool
  | .inl a, .inl b => decide (a < b)
  | .inl _, .inr _ => true
  | .inr _, .inl _ => false
  | .inr a, .inr b => decide (a < b)

/-- Lexicographic order on token lists. -/
def tokListLt : List (Nat ⊕ Char) → List (Nat ⊕ Char) → Bool
  | [], [] => false
  | [], _ :: _ => true
  | _ :: _, [] => false
  | a :: as, b :: bs => if tokLt a b then true else if a = b then tokListLt as bs else false

/-- Modelled from the spec: `PBD::naturally_less` (libs/pbd, outside
`src/`) — numeric-aware lexicographic order, "port2" before "port10". -/
def naturally_less (a b : String) : Bool :=
  tokListLt (natTokens a.data) (natTokens b.data)

/-- Insertion step of the port sort. -/
def natInsert (x : String) : List String → List String
  | [] => [x]
  | y :: ys => if naturally_less x y then x :: y :: ys else y :: natInsert x ys

/-- The `std::sort` by `naturally_less` over the engine-port scan. -/
def natSortPorts (l : List String) : List String :=
  l.foldr natInsert []

/-- What the embedding needs of the engine singletons: program name, the
localized "Monitor" word, `make_port_name_non_relative`, `get_ports` by
type and direction, port lookup (`none` when `get_port_by_name` fails),
`get_pretty_name_by_name` (empty when absent), the transport masters and
the control-surface bundles. -/
structure PortInfo where
  ptype : Option DataType
  physical : Bool
  hidden : Bool

structure TMaster where
  tname : String
  port : Option (String × DataType)

structure Env where
  program_name : String
  monitor_word : String
  nonRelative : String → String
  get_ports : DataType → Bool → List String
  port_info : String → Option PortInfo
  pretty : String → String
  transport_masters : List TMaster
  control_bundles : List Bundle

/-- `PortGroupList::make_bundle_from_ports (p, type, inputs, bundle_name)`:
name the bundle after the explicit name, else the common prefix with its
trailing separator stripped; one channel per port, named by the engine
pretty name when there is one, else by the port name with the prefix
stripped. -/
def make_bundle_from_ports (env : Env) (p : List String) (ty : DataType) (inputs : Bool)
    (bundle_name : String) : Bundle :=
  let pre := common_prefix_of p
  let b1 :=
    if !bundle_name.data.isEmpty then
      Bundle.set_name ⟨0, "", inputs, []⟩ bundle_name
    else if !pre.data.isEmpty then
      Bundle.set_name ⟨0, "", inputs, []⟩ (strTake pre (strLen pre - 1))
    else ⟨0, "", inputs, []⟩
  p.foldl (fun b pj =>
    let n := strDrop pj (strLen pre)
    let pn := env.pretty pj
    let n := if !pn.data.isEmpty then pn else n
    Bundle.set_port (Bundle.add_channel b n ty) (Bundle.add_channel b n ty).channels.length.pred pj)
    b1

/-- One step of the run accumulation in
`PortGroupList::add_bundles_for_ports`: flush the run when the prefix up to
the separator changes. -/
def abfpStep (env : Env) (ty : DataType) (inputs allow_dups : Bool) (c : Char)
    (acc : PGState × List String × String) (s : String) : PGState × List String × String :=
  let pf := prefix_through s c
  let acc1 :=
    if pf ≠ acc.2.2 ∧ acc.2.1 ≠ [] then
      ((PortGroup.add_bundle acc.1 (make_bundle_from_ports env acc.2.1 ty inputs "") allow_dups).1,
       ([] : List String), acc.2.2)
    else acc
  (acc1.1, acc1.2.1 ++ [s], pf)

/-- `PortGroupList::add_bundles_for_ports`: choose `/` when every name has
one, else `:` when every name has one, else put the whole list in one
bundle; with a separator, each contiguous run sharing the prefix up to and
including it becomes one synthetic bundle. -/
def add_bundles_for_ports (env : Env) (p : List String) (ty : DataType)
    (inputs allow_dups : Bool) (group : PGState) : PGState :=
  let has_slash := p.all (fun s => strContainsChar s '/')
  let has_colon := p.all (fun s => strContainsChar s ':')
  if has_slash || has_colon then
    let c := if has_slash then '/' else ':'
    let r := p.foldl (abfpStep env ty inputs allow_dups c) (group, [], "")
    if r.2.1.isEmpty then r.1
    else (PortGroup.add_bundle r.1 (make_bundle_from_ports env r.2.1 ty inputs "") allow_dups).1
  else
    (PortGroup.add_bundle group (make_bundle_from_ports env p ty inputs "") allow_dups).1

/-- An IO endpoint (route or processor input/output): identity, its bundle,
and its `n_ports ()` count. -/
structure IOrec where
  rid : Nat
  bundle : Bundle
  nports : ChanCount
deriving DecidableEq

/-- A processor on a route, as `maybe_add_processor_to_list` sees it: its
input- and output-side IO when it is an `IOProcessor` with such an IO,
`none` otherwise. -/
structure ProcRec where
  ioIn : Option IOrec
  ioOut : Option IOrec
deriving DecidableEq

/-- A route (channel strip): presentation order, track/monitor flags, its
two main IOs, its processors, its plugins' sidechain input IOs (in
`nth_plugin` order, `none` for a plugin without a sidechain), and the
editor strip colour when a time-axis view exists. -/
structure Route where
  rrid : Nat
  order : Nat
  isTrack : Bool
  isMonitor : Bool
  input : IOrec
  output : IOrec
  processors : List ProcRec
  plugins : List (Option IOrec)
  tvColor : Option Nat
deriving DecidableEq

/-- A session-owned bundle with its user/non-user distinction. -/
structure SessBundle where
  bundle : Bundle
  isUser : Bool
deriving DecidableEq

/-- A session-level IO plugin with its pre/post flag. -/
structure IOPlugRec where
  input : IOrec
  output : IOrec
  isPre : Bool
deriving DecidableEq

/-- What the embedding needs of `ARDOUR::Session`: routes, session bundles,
the auditioner's output bundle and the click IO's bundle (when present),
and the fixed session port names used by the miscellany step. -/
structure SessionModel where
  routes : List Route
  bundles : List SessBundle
  auditioner_bundle : Option Bundle
  click_bundle : Option Bundle
  ltc_output_port : String
  vkbd_name : String
  vkbd_pretty : String
  mmc_input_port : String
  mtc_output_port : String
  midi_clock_output_port : String
  mmc_output_port : String
  io_plugs : List IOPlugRec
deriving Inhabited

/-- The `RouteIOs` helper of the gather pass: a route and the IOs whose
bundles were taken from it. -/
structure RouteIOs where
  route : Route
  ios : List IOrec
deriving DecidableEq

/-- The route's main IO followed by the IOs of its `IOProcessor`s, skipping
IOs already used (`used_io`, here by id). -/
def collect_route_ios (r : Route) (inputs : Bool) : List IOrec :=
  let main := if inputs then r.input else r.output
  (r.processors.foldl (fun (acc : List IOrec × List Nat) p =>
      match (if inputs then p.ioIn else p.ioOut) with
      | none => acc
      | some x => if acc.2.contains x.rid then acc else (acc.1 ++ [x], acc.2 ++ [x.rid]))
    ([main], [main.rid])).1

/-- The route loop of `gather`: on the input side the monitor bus is
skipped ("we never show the monitor bus inputs"); every other route
contributes its collected IOs. -/
def routeScan (s : SessionModel) (inputs : Bool) : List RouteIOs :=
  s.routes.filterMap (fun r =>
    if inputs && r.isMonitor then none
    else some ⟨r, collect_route_ios r inputs⟩)

/-- Insertion step of the sort by `presentation_info().order()`. -/
def rioInsert (x : RouteIOs) : List RouteIOs → List RouteIOs
  | [] => [x]
  | y :: ys => if x.route.order < y.route.order then x :: y :: ys else y :: rioInsert x ys

/-- `route_ios.sort (RouteIOsComparator ())`: stable sort by route order. -/
def sort_route_ios (l : List RouteIOs) : List RouteIOs :=
  l.foldr rioInsert []

/-- The type filter of the route loop:
`type == DataType::NIL || bundle->nchannels().n(type) > 0`. -/
def typeMatch (ty : Option DataType) (b : Bundle) : Bool :=
  match ty with
  | none => true
  | some t => decide (b.nchannels.get t > 0)

/-- Adding one route IO's bundle to the route's group, with the strip
colour when a time-axis view exists. -/
def ioStep (ty : Option DataType) (rio : RouteIOs) (g : PGState) (x : IOrec) : PGState :=
  if typeMatch ty x.bundle then
    match rio.route.tvColor with
    | some c => (PortGroup.add_bundle_with_colour g x.bundle x.rid c).1
    | none => (PortGroup.add_bundle_with_io g x.bundle x.rid).1
  else g

/-- All of one route's IO bundles added to its group. -/
def add_io_bundles (ty : Option DataType) (rio : RouteIOs) (g : PGState) : PGState :=
  rio.ios.foldl (ioStep ty rio) g

/-- One plugin of the sidechain walk: a sidechain's input bundle goes into
the "Sidechains" group. -/
def scStep (rio : RouteIOs) (g : PGState) (sc : Option IOrec) : PGState :=
  match sc with
  | none => g
  | some x =>
    match rio.route.tvColor with
    | some c => (PortGroup.add_bundle_with_colour g x.bundle x.rid c).1
    | none => (PortGroup.add_bundle_with_io g x.bundle x.rid).1

/-- The sidechain walk runs only when gathering inputs. -/
def add_sidechain_bundles (inputs : Bool) (rio : RouteIOs) (g : PGState) : PGState :=
  if inputs then rio.route.plugins.foldl (scStep rio) g else g

/-- The three groups the route loop fills. -/
structure RPAcc where
  bus : PGState
  track : PGState
  sidechain : PGState
deriving DecidableEq

/-- One sorted route's contribution: IO bundles into "Tracks" when the
route is a track, else "Busses"; sidechains into "Sidechains". -/
def routeStep (ty : Option DataType) (inputs : Bool) (acc : RPAcc) (rio : RouteIOs) : RPAcc :=
  if rio.route.isTrack then
    { acc with track := add_io_bundles ty rio acc.track,
               sidechain := add_sidechain_bundles inputs rio acc.sidechain }
  else
    { acc with bus := add_io_bundles ty rio acc.bus,
               sidechain := add_sidechain_bundles inputs rio acc.sidechain }

/-- The whole route phase of `gather`. -/
def routePhase (s : SessionModel) (ty : Option DataType) (inputs : Bool) : RPAcc :=
  (sort_route_ios (routeScan s inputs)).foldl (routeStep ty inputs)
    ⟨⟨"Busses", []⟩, ⟨"Tracks", []⟩, ⟨"Sidechains", []⟩⟩

/-- The synthesized "LTC Out" bundle (output side, audio). -/
def ltc_bundle (env : Env) (s : SessionModel) (inputs : Bool) : Bundle :=
  Bundle.add_channel_port ⟨0, "LTC Out", inputs, []⟩ "LTC Out" .Audio
    (env.nonRelative s.ltc_output_port)

/-- The synthesized audio "Sync" bundle (input side): one channel per
transport master whose port exists and is an audio port. -/
def audio_sync_bundle (env : Env) (inputs : Bool) : Bundle :=
  ⟨0, "Sync", inputs,
   env.transport_masters.filterMap (fun tm =>
     match tm.port with
     | none => none
     | some (pn, t) =>
       if t = .Audio then some ⟨tm.tname, .Audio, [env.nonRelative pn]⟩ else none)⟩

/-- The synthesized virtual-keyboard bundle (output side, MIDI), named by
the port's pretty name. -/
def vkbd_bundle (env : Env) (s : SessionModel) (inputs : Bool) : Bundle :=
  Bundle.add_channel_port ⟨0, s.vkbd_pretty, inputs, []⟩ s.vkbd_pretty .Midi
    (env.nonRelative s.vkbd_name)

/-- The synthesized MIDI "Sync" bundle: on the input side every transport
master's MIDI port plus "MMC in"; on the output side the fixed "MTC out",
"MIDI clock out" and "MMC out" channels. -/
def midi_sync_bundle (env : Env) (s : SessionModel) (inputs : Bool) : Bundle :=
  ⟨0, "Sync", inputs,
   if inputs then
     (env.transport_masters.filterMap (fun tm =>
       match tm.port with
       | none => none
       | some (pn, t) =>
         if t = .Midi then some ⟨tm.tname, .Midi, [env.nonRelative pn]⟩ else none)) ++
     [⟨"MMC in", .Midi, [env.nonRelative s.mmc_input_port]⟩]
   else
     [⟨"MTC out", .Midi, [env.nonRelative s.mtc_output_port]⟩,
      ⟨"MIDI clock out", .Midi, [env.nonRelative s.midi_clock_output_port]⟩,
      ⟨"MMC out", .Midi, [env.nonRelative s.mmc_output_port]⟩]⟩

/-- The eight category groups of one gather pass. -/
structure GatherGroups where
  bus : PGState
  track : PGState
  sidechain : PGState
  iop_pre : PGState
  iop_post : PGState
  program : PGState
  other : PGState
  system : PGState
deriving DecidableEq

/-- The groups in the order `gather` appends them. -/
def GatherGroups.toList (gg : GatherGroups) : List PGState :=
  [gg.bus, gg.track, gg.sidechain, gg.iop_pre, gg.iop_post, gg.program, gg.other, gg.system]

/-- Per-type pending port lists of the unclaimed-port scan. -/
structure TypedPorts where
  paudio : List String
  pmidi : List String
deriving DecidableEq

def TypedPorts.push (tp : TypedPorts) (t : DataType) (s : String) : TypedPorts :=
  match t with
  | .Audio => { tp with paudio := tp.paudio ++ [s] }
  | .Midi => { tp with pmidi := tp.pmidi ++ [s] }

def TypedPorts.get (tp : TypedPorts) (t : DataType) : List String :=
  match t with
  | .Audio => tp.paudio
  | .Midi => tp.pmidi

/-- The three bucket families `extra_system`, `extra_program`,
`extra_other`. -/
structure ExtraBuckets where
  system : TypedPorts
  program : TypedPorts
  other : TypedPorts
deriving DecidableEq

/-- One engine port of the unclaimed scan: dedup against every group (unless
`allow_dups`), the "Midi-Through" exclusion, the own-monitor exclusion,
then the lookup and the bucket choice (program prefix / physical /
other). -/
def scanStep (env : Env) (gg : GatherGroups) (allow_dups : Bool) (lpn lpnc mon : String)
    (bk : ExtraBuckets) (p : String) : ExtraBuckets :=
  if allow_dups ||
     (!PortGroup.has_port gg.system p && !PortGroup.has_port gg.bus p &&
      !PortGroup.has_port gg.track p && !PortGroup.has_port gg.iop_pre p &&
      !PortGroup.has_port gg.iop_post p && !PortGroup.has_port gg.sidechain p &&
      !PortGroup.has_port gg.program p && !PortGroup.has_port gg.other p) then
    if containsSubL "Midi-Through".data p.data || containsSubL "Midi Through".data p.data then bk
    else if containsSubL mon.data (strToLower p).data &&
            containsSubL lpn.data (strToLower p).data then bk
    else
      match env.port_info p with
      | none => bk
      | some pin =>
        match pin.ptype with
        | none => bk
        | some t =>
          if pin.hidden then bk
          else if port_starts_with p lpnc then { bk with program := bk.program.push t p }
          else if pin.physical then { bk with system := bk.system.push t p }
          else { bk with other := bk.other.push t p }
  else bk

/-- All phases of `gather` that build the eight groups (no list-level
signal is emitted while they run: the groups are freshly constructed and
nothing is connected to them yet). -/
def gather_groups (s : SessionModel) (env : Env) (ty : Option DataType)
    (inputs allow_dups use_session_bundles : Bool) : GatherGroups :=
  let rp := routePhase s ty inputs
  -- session bundles: user bundles first, then (optionally) the rest
  let system1 := s.bundles.foldl (fun g sb =>
      if sb.isUser ∧ sb.bundle.dir_inputs = inputs then
        (PortGroup.add_bundle g sb.bundle allow_dups).1
      else g)
    ⟨"Hardware", []⟩
  let system2 :=
    if use_session_bundles then
      s.bundles.foldl (fun g sb =>
        if ¬sb.isUser ∧ sb.bundle.dir_inputs = inputs then
          (PortGroup.add_bundle g sb.bundle allow_dups).1
        else g) system1
    else system1
  -- miscellany: audio side
  let program1 :=
    if ty = some .Audio ∨ ty = none then
      if !inputs then
        let pa := match s.auditioner_bundle with
          | some b => (PortGroup.add_bundle ⟨env.program_name ++ " Misc", []⟩ b false).1
          | none => ⟨env.program_name ++ " Misc", []⟩
        let pc := match s.click_bundle with
          | some b => (PortGroup.add_bundle pa b false).1
          | none => pa
        (PortGroup.add_bundle pc (ltc_bundle env s inputs) false).1
      else
        (PortGroup.add_bundle ⟨env.program_name ++ " Misc", []⟩
          (audio_sync_bundle env inputs) false).1
    else ⟨env.program_name ++ " Misc", []⟩
  -- control surfaces (assumed MIDI)
  let program2 :=
    if ty = some .Midi ∨ ty = none then
      env.control_bundles.foldl (fun g b =>
        if b.dir_inputs = inputs then (PortGroup.add_bundle g b false).1 else g) program1
    else program1
  -- virtual keyboard
  let program3 :=
    if !inputs && (ty = some .Midi ∨ ty = none : Bool) then
      (PortGroup.add_bundle program2 (vkbd_bundle env s inputs) false).1
    else program2
  -- MIDI sync ports
  let program4 :=
    if ty = some .Midi ∨ ty = none then
      (PortGroup.add_bundle program3 (midi_sync_bundle env s inputs) false).1
    else program3
  -- session IO plugins
  let iopr := s.io_plugs.foldl (fun (acc : PGState × PGState) ip =>
      let x := if inputs then ip.input else ip.output
      if x.nports.n_total = 0 then acc
      else if (match ty with | none => true | some t => decide (x.nports.get t > 0)) then
        if ip.isPre then ((PortGroup.add_bundle_with_io acc.1 x.bundle x.rid).1, acc.2)
        else (acc.1, (PortGroup.add_bundle_with_io acc.2 x.bundle x.rid).1)
      else acc)
    (⟨"I/O Pre", []⟩, ⟨"I/O Post", []⟩)
  -- the unclaimed-port scan
  let lpn := strToLower env.program_name
  let lpnc := lpn ++ ":"
  let ports0 := match ty with
    | none => env.get_ports .Audio inputs ++ env.get_ports .Midi inputs
    | some t => env.get_ports t inputs
  let gg0 : GatherGroups :=
    ⟨rp.bus, rp.track, rp.sidechain, iopr.1, iopr.2, program4, ⟨"External", []⟩, system2⟩
  let bk :=
    if ports0.isEmpty then (⟨⟨[], []⟩, ⟨[], []⟩, ⟨[], []⟩⟩ : ExtraBuckets)
    else (natSortPorts ports0).foldl
      (scanStep env gg0 allow_dups lpn lpnc (strToLower env.monitor_word))
      ⟨⟨[], []⟩, ⟨[], []⟩, ⟨[], []⟩⟩
  -- synthesis from the buckets, per data type
  let system3 := if !bk.system.paudio.isEmpty then
      add_bundles_for_ports env bk.system.paudio .Audio inputs allow_dups gg0.system
    else gg0.system
  let system4 := if !bk.system.pmidi.isEmpty then
      add_bundles_for_ports env bk.system.pmidi .Midi inputs allow_dups system3
    else system3
  let program5 := if !bk.program.paudio.isEmpty then
      (PortGroup.add_bundle gg0.program
        (make_bundle_from_ports env bk.program.paudio .Audio inputs lpn) false).1
    else gg0.program
  let program6 := if !bk.program.pmidi.isEmpty then
      (PortGroup.add_bundle program5
        (make_bundle_from_ports env bk.program.pmidi .Midi inputs lpn) false).1
    else program5
  let other1 := if !bk.other.paudio.isEmpty then
      add_bundles_for_ports env bk.other.paudio .Audio inputs allow_dups gg0.other
    else gg0.other
  let other2 := if !bk.other.pmidi.isEmpty then
      add_bundles_for_ports env bk.other.pmidi .Midi inputs allow_dups other1
    else other1
  -- `remove_duplicates` on "Hardware" unless duplicates are allowed
  let system5 := if !allow_dups then (PortGroup.remove_duplicates system4).1 else system4
  ⟨gg0.bus, gg0.track, gg0.sidechain, gg0.iop_pre, gg0.iop_post, program6, other2, system5⟩

/-- One `add_group_if_not_empty` call inside `gather`, with its events. -/
def gatherStep (acc : PGLState × List PGEvent) (g : PGState) : PGLState × List PGEvent :=
  ((PortGroupList.add_group_if_not_empty acc.1 g).1,
   acc.2 ++ (PortGroupList.add_group_if_not_empty acc.1 g).2)

/-- `PortGroupList::gather`: clear (one `emit_changed`), return at once on a
null session; otherwise build the eight groups, append each non-empty one
(one `emit_changed` each), and end with a final `emit_changed`. -/
def PortGroupList.gather (st : PGLState) (session : Option SessionModel) (env : Env)
    (ty : Option DataType) (inputs allow_dups use_session_bundles : Bool) :
    PGLState × List PGEvent :=
  match session with
  | none => PortGroupList.clear st
  | some s =>
    let c := PortGroupList.clear st
    let f := (gather_groups s env ty inputs allow_dups use_session_bundles).toList.foldl
      gatherStep (c.1, ([] : List PGEvent))
    (⟨f.1.groups, (PortGroupList.emit_changed f.1.sig).1⟩,
     c.2 ++ f.2 ++ (PortGroupList.emit_changed f.1.sig).2)

/-! Concrete instances used by witnesses and counterexamples. -/

/-- A one-channel hardware bundle. -/
def exBundleSmall : Bundle := ⟨1, "A", false, [⟨"L", .Audio, ["sys:p1"]⟩]⟩

/-- A two-channel bundle whose channels cover `exBundleSmall`'s. -/
def exBundleBig : Bundle :=
  ⟨2, "B", false, [⟨"L", .Audio, ["sys:p1"]⟩, ⟨"R", .Audio, ["sys:p2"]⟩]⟩

/-- A bundle distinct from `exBundleSmall` (other id and name) but with the
same port set. -/
def exBundleSame : Bundle := ⟨3, "C", false, [⟨"mono", .Audio, ["sys:p1"]⟩]⟩

/-- A bundle present in no example group. -/
def exBundleOther : Bundle := ⟨99, "zz", false, [⟨"z", .Audio, ["sys:z"]⟩]⟩

def exRecSmall : BundleRecord := ⟨exBundleSmall, none, 0, false, true⟩

def exRecBig : BundleRecord := ⟨exBundleBig, none, 0, false, true⟩

/-- A "Hardware" group holding a covered bundle and its covering bundle. -/
def exGroupHW : PGState := ⟨"Hardware", [exRecSmall, exRecBig]⟩

/-- A group holding only `exRecSmall`. -/
def exGroupOne : PGState := ⟨"Tracks", [exRecSmall]⟩

/-- A list state owning one connected group, signals not suspended. -/
def exListState : PGLState := ⟨[exGroupOne], ⟨false, false, 0⟩⟩

/-- An environment with no engine ports, no masters, no surfaces and no
pretty names. -/
def envEmpty : Env :=
  ⟨"ardour", "Monitor", fun s => s, fun _ _ => [], fun _ => none, fun _ => "",
   [], []⟩

/-- A session with no routes, no bundles, no IO plugins, no auditioner and
no click. -/
def sessEmpty : SessionModel :=
  ⟨[], [], none, none, "LTC-out", "vkbd-out", "Virtual Keyboard", "mmc-in",
   "mtc-out", "clk-out", "mmc-out", []⟩

/-- A fresh, non-suspended list state. -/
def st0 : PGLState := ⟨[], ⟨false, false, 0⟩⟩

/-- An IO belonging to the example monitor route. -/
def ioMon : IOrec :=
  ⟨10, ⟨10, "monitor", true, [⟨"in1", .Audio, ["ardour:Monitor/audio_in 1"]⟩]⟩, ⟨1, 0⟩⟩

/-- An IO belonging to the example track route. -/
def ioNorm : IOrec :=
  ⟨11, ⟨11, "track-in", true, [⟨"in1", .Audio, ["ardour:Audio 1/audio_in 1"]⟩]⟩, ⟨1, 0⟩⟩

/-- A route flagged as the monitor bus. -/
def routeMon : Route := ⟨1, 0, false, true, ioMon, ioMon, [], [], none⟩

/-- An ordinary track route. -/
def routeNorm : Route := ⟨2, 1, true, false, ioNorm, ioNorm, [], [], none⟩

/-- A session holding the monitor route and one track. -/
def sessC7 : SessionModel := { sessEmpty with routes := [routeMon, routeNorm] }

/-- The track route's `RouteIOs` entry on the input side. -/
def rioNorm : RouteIOs := ⟨routeNorm, collect_route_ios routeNorm true⟩

/-- The expected synthetic bundle for `["a/1","a/2","a/3"]`. -/
def c8bundleA : Bundle :=
  ⟨0, "a", false, [⟨"1", .Audio, ["a/1"]⟩, ⟨"2", .Audio, ["a/2"]⟩, ⟨"3", .Audio, ["a/3"]⟩]⟩

def c8group1 : PGState := ⟨"External", [⟨c8bundleA, none, 0, false, true⟩]⟩

def c8bundleA1 : Bundle := ⟨0, "a", false, [⟨"1", .Audio, ["a/1"]⟩]⟩

def c8bundleB1 : Bundle := ⟨0, "b", false, [⟨"1", .Audio, ["b/1"]⟩]⟩

def c8group2 : PGState :=
  ⟨"External", [⟨c8bundleA1, none, 0, false, true⟩, ⟨c8bundleB1, none, 0, false, true⟩]⟩

def c8bundleColon : Bundle :=
  ⟨0, "a", false, [⟨"1", .Audio, ["a:1"]⟩, ⟨"2", .Audio, ["a:2"]⟩]⟩

def c8group3 : PGState := ⟨"Hardware", [⟨c8bundleColon, none, 0, false, true⟩]⟩

/-! Conclusion predicates of the larger claims (so the witness can restate
the instantiated conclusion without repeating it). -/

/-- What holds of a suspended signal state after any sequence of mutations'
notification calls followed by `resume_signals`: nothing fires while
suspended, a single pending flag and only the latest payload are kept, and
resume fires each pending notification at most once, generic "changed"
first, before clearing the suspension state. -/
def C3Concl (s : SigState) (ops : List SigOp) : Prop :=
  (runSigOps s ops).2 = [] ∧
  (runSigOps s ops).1.suspended = true ∧
  (runSigOps s ops).1.pending_change = (s.pending_change || ops.any isEmitChanged) ∧
  (runSigOps s ops).1.pending_bundle_change = lastBundleChange ops s.pending_bundle_change ∧
  (PortGroupList.resume_signals (runSigOps s ops).1).2 =
    (if (runSigOps s ops).1.pending_change then [PGEvent.changed] else []) ++
    (if (runSigOps s ops).1.pending_bundle_change ≠ 0 then
      [PGEvent.bundleChanged (runSigOps s ops).1.pending_bundle_change] else []) ∧
  countChanged (PortGroupList.resume_signals (runSigOps s ops).1).2 ≤ 1 ∧
  (ops.any isEmitChanged = true →
    countChanged (PortGroupList.resume_signals (runSigOps s ops).1).2 = 1) ∧
  (PortGroupList.resume_signals (runSigOps s ops).1).1 = ⟨false, false, 0⟩

/-- What a non-suspended `gather` with a non-null session does: one
"changed" from the initial clear, one per non-empty group appended, one
final — `2 + G` in all — and the resulting group list is exactly the
non-empty groups in their fixed order. -/
def C4Concl (st : PGLState) (s : SessionModel) (env : Env) (ty : Option DataType)
    (inputs allow_dups use_session_bundles : Bool) : Prop :=
  countChanged (PortGroupList.gather st (some s) env ty inputs allow_dups use_session_bundles).2 =
    2 + (gather_groups s env ty inputs allow_dups use_session_bundles).toList.countP
          (fun g => !g.bundles.isEmpty) ∧
  (PortGroupList.gather st (some s) env ty inputs allow_dups use_session_bundles).1.groups =
    (gather_groups s env ty inputs allow_dups use_session_bundles).toList.filter
      (fun g => !g.bundles.isEmpty) ∧
  (PortGroupList.gather st (some s) env ty inputs allow_dups use_session_bundles).1.sig = st.sig

/-- What the input-side route scan guarantees: no scanned entry is the
monitor route, and every record of the "Tracks" and "Busses" groups built
by `gather` stems from a non-monitor route's collected IOs. -/
def C7Concl (s : SessionModel) (env : Env) (ty : Option DataType)
    (allow_dups use_session_bundles : Bool) : Prop :=
  (∀ rio ∈ routeScan s true, rio.route.isMonitor = false) ∧
  (∀ rec ∈ (gather_groups s env ty true allow_dups use_session_bundles).track.bundles ++
           (gather_groups s env ty true allow_dups use_session_bundles).bus.bundles,
     ∃ r ∈ s.routes, r.isMonitor = false ∧
       ∃ x ∈ collect_route_ios r true, rec.bundle = x.bundle)

/-- What `PortGroupList::remove_bundle` does when not suspended: it forwards
the removal to every owned group, always ends with a list-level "changed"
(even when no group held the bundle), and — by contrast — the group-level
`PortGroup::remove_bundle` stays silent when it removes nothing. -/
def C10Concl (st : PGLState) (b : Bundle) : Prop :=
  (PortGroupList.remove_bundle st b).1.groups =
    st.groups.map (fun g => (PortGroup.remove_bundle g b).1) ∧
  (∃ evs, (PortGroupList.remove_bundle st b).2 = evs ++ [PGEvent.changed]) ∧
  ((∀ g ∈ st.groups, ∀ rec ∈ g.bundles, rec.bundle.bid ≠ b.bid) →
    (PortGroupList.remove_bundle st b).2 = [PGEvent.changed]) ∧
  (∀ g : PGState, (∀ rec ∈ g.bundles, rec.bundle.bid ≠ b.bid) →
    PortGroup.remove_bundle g b = (g, []))

/-! Theorems. -/

lemma coveredBy_self (r : BundleRecord) : coveredBy r r = false := by
  simp [coveredBy, ChanCount.gt, ChanCount.lt]

lemma removeDupsGo_covered :
    ∀ (rest kept : List BundleRecord) (a : BundleRecord),
      a ∈ kept ++ rest → a ∉ removeDupsGo kept rest →
      ∃ b ∈ kept ++ rest, coveredBy a b = true := by
  intro rest
  induction rest with
  | nil =>
    intro kept a ha hrem
    simp only [removeDupsGo] at hrem
    simp only [List.append_nil] at ha
    exact absurd ha hrem
  | cons x rest ih =>
    intro kept a ha hrem
    by_cases hc : (kept ++ x :: rest).any (fun j => coveredBy x j) = true
    · have hstep : removeDupsGo kept (x :: rest) = removeDupsGo kept rest := by
        simp [removeDupsGo, hc]
      rw [hstep] at hrem
      have hmem : a ∈ kept ++ rest ∨ a = x := by
        rcases List.mem_append.mp ha with hk | hxr
        · exact Or.inl (List.mem_append.mpr (Or.inl hk))
        · rcases List.mem_cons.mp hxr with he | hr
          · exact Or.inr he
          · exact Or.inl (List.mem_append.mpr (Or.inr hr))
      rcases hmem with hm | rfl
      · obtain ⟨b, hb, hcov⟩ := ih kept a hm hrem
        refine ⟨b, ?_, hcov⟩
        rcases List.mem_append.mp hb with h | h
        · exact List.mem_append.mpr (Or.inl h)
        · exact List.mem_append.mpr (Or.inr (List.mem_cons_of_mem _ h))
      · obtain ⟨b, hb, hcov⟩ := List.any_eq_true.mp hc
        exact ⟨b, hb, hcov⟩
    · have hstep : removeDupsGo kept (x :: rest) = removeDupsGo (kept ++ [x]) rest := by
        simp [removeDupsGo, hc]
      rw [hstep] at hrem
      have ha' : a ∈ (kept ++ [x]) ++ rest := by simpa [List.append_assoc] using ha
      obtain ⟨b, hb, hcov⟩ := ih (kept ++ [x]) a ha' hrem
      refine ⟨b, ?_, hcov⟩
      simpa [List.append_assoc] using hb

/-- C1: `PortGroup::remove_duplicates` removes a record `a` only if some
other record `b` of the same group has strictly more channels and every
channel of `a` has an identical port list to some channel of `b`; a record
with no such covering larger bundle is left in place. -/
theorem C1_remove_duplicates_covered (g : PGState) (a : BundleRecord)
    (ha : a ∈ g.bundles) :
    (a ∉ (PortGroup.remove_duplicates g).1.bundles →
      ∃ b ∈ g.bundles, b ≠ a ∧ coveredBy a b = true) ∧
    ((∀ b ∈ g.bundles, coveredBy a b = false) →
      a ∈ (PortGroup.remove_duplicates g).1.bundles) := by
  have key : a ∉ removeDupsGo [] g.bundles → ∃ b ∈ g.bundles, coveredBy a b = true := by
    intro hrem
    have := removeDupsGo_covered g.bundles [] a (by simpa using ha) hrem
    simpa using this
  constructor
  · intro hrem
    obtain ⟨b, hb, hcov⟩ := key (by simpa [PortGroup.remove_duplicates] using hrem)
    refine ⟨b, hb, ?_, hcov⟩
    rintro rfl
    rw [coveredBy_self] at hcov
    exact Bool.false_ne_true hcov
  · intro hnone
    by_contra hrem
    obtain ⟨b, hb, hcov⟩ := key (by simpa [PortGroup.remove_duplicates] using hrem)
    rw [hnone b hb] at hcov
    exact Bool.false_ne_true hcov

/-- Witness for C1 at a concrete group: the one-channel bundle is removed,
and the two-channel bundle covering it is in the group. -/
theorem C1_witness :
    exRecSmall ∈ exGroupHW.bundles ∧
    ((exRecSmall ∉ (PortGroup.remove_duplicates exGroupHW).1.bundles →
        ∃ b ∈ exGroupHW.bundles, b ≠ exRecSmall ∧ coveredBy exRecSmall b = true) ∧
      ((∀ b ∈ exGroupHW.bundles, coveredBy exRecSmall b = false) →
        exRecSmall ∈ (PortGroup.remove_duplicates exGroupHW).1.bundles)) :=
  ⟨by decide, C1_remove_duplicates_covered exGroupHW exRecSmall (by decide)⟩

lemma has_same_ports_self (b : Bundle) : b.has_same_ports b = true := by
  simp [Bundle.has_same_ports, List.all_eq_true]

/-- C2: when a group already holds a record whose bundle has the same port
set as `b`, `add_bundle_internal` with `allow_dups = false` is a no-op —
the record list is unchanged, no subscription is made and no "changed"
fires; hence adding `b` twice with `allow_dups = false` leaves the state of
the first add untouched. -/
theorem C2_add_bundle_nodup (g : PGState) (b : Bundle) (ior : Option Nat)
    (hc : Bool) (c : Nat)
    (h : (g.bundles.any fun r => b.has_same_ports r.bundle) = true) :
    PortGroup.add_bundle_internal g b ior hc c false = (g, []) ∧
    ∀ (g' : PGState) (ior2 : Option Nat) (hc2 : Bool) (c2 : Nat) (ior3 : Option Nat)
      (hc3 : Bool) (c3 : Nat),
      PortGroup.add_bundle_internal
          (PortGroup.add_bundle_internal g' b ior2 hc2 c2 false).1 b ior3 hc3 c3 false
        = ((PortGroup.add_bundle_internal g' b ior2 hc2 c2 false).1, []) := by
  constructor
  · simp [PortGroup.add_bundle_internal, h]
  · intro g' ior2 hc2 c2 ior3 hc3 c3
    by_cases h' : (g'.bundles.any fun r => b.has_same_ports r.bundle) = true
    · simp [PortGroup.add_bundle_internal, h']
    · simp [PortGroup.add_bundle_internal, h', has_same_ports_self]

/-- Witness for C2: a group holding a record with port set `{sys:p1}` and a
structurally identical bundle to add. -/
theorem C2_witness :
    ((exGroupOne.bundles.any fun r => exBundleSame.has_same_ports r.bundle) = true) ∧
    (PortGroup.add_bundle_internal exGroupOne exBundleSame none false 0 false =
        (exGroupOne, []) ∧
      ∀ (g' : PGState) (ior2 : Option Nat) (hc2 : Bool) (c2 : Nat) (ior3 : Option Nat)
        (hc3 : Bool) (c3 : Nat),
        PortGroup.add_bundle_internal
            (PortGroup.add_bundle_internal g' exBundleSame ior2 hc2 c2 false).1
            exBundleSame ior3 hc3 c3 false
          = ((PortGroup.add_bundle_internal g' exBundleSame ior2 hc2 c2 false).1, [])) :=
  ⟨by decide, C2_add_bundle_nodup exGroupOne exBundleSame none false 0 (by decide)⟩

/-- C5 (amended): an `add_bundle` call either is a dedup no-op (list
unchanged, no event) or appends one record and fires exactly one "changed";
a `remove_bundle` call either removes nothing and fires nothing or removes
one record and fires exactly one "changed"; `clear` fires exactly one
"changed"; but `remove_duplicates` fires no "changed" at all, even when it
erases records. -/
theorem C5_mutations_changed :
    (∀ (g : PGState) (b : Bundle) (ior : Option Nat) (hc : Bool) (c : Nat) (ad : Bool),
      PortGroup.add_bundle_internal g b ior hc c ad = (g, []) ∨
      ∃ r, PortGroup.add_bundle_internal g b ior hc c ad =
        ({ g with bundles := g.bundles ++ [r] }, [PGEvent.changed])) ∧
    (∀ (g : PGState) (b : Bundle),
      PortGroup.remove_bundle g b = (g, []) ∨
      ((PortGroup.remove_bundle g b).2 = [PGEvent.changed] ∧
       (PortGroup.remove_bundle g b).1.bundles.length + 1 = g.bundles.length)) ∧
    (∀ g : PGState, PortGroup.clear g = ({ g with bundles := [] }, [PGEvent.changed])) ∧
    (∀ g : PGState, (PortGroup.remove_duplicates g).2 = []) := by
  refine ⟨?_, ?_, fun g => rfl, fun g => rfl⟩
  · intro g b ior hc c ad
    by_cases h : (!ad && g.bundles.any fun r => b.has_same_ports r.bundle) = true
    · exact Or.inl (by simp [PortGroup.add_bundle_internal, h])
    · exact Or.inr ⟨⟨b, ior, c, hc, true⟩, by simp [PortGroup.add_bundle_internal, h]⟩
  · intro g b
    have aux : ∀ l : List BundleRecord,
        removeBundleAux l b = (l, []) ∨
        ((removeBundleAux l b).2 = [PGEvent.changed] ∧
         (removeBundleAux l b).1.length + 1 = l.length) := by
      intro l
      induction l with
      | nil => exact Or.inl rfl
      | cons r rs ih =>
        by_cases hh : r.bundle.bid = b.bid
        · exact Or.inr ⟨by simp [removeBundleAux, hh], by simp [removeBundleAux, hh]⟩
        · rcases ih with h1 | h2
          · exact Or.inl (by simp [removeBundleAux, hh, h1])
          · refine Or.inr ⟨by simp [removeBundleAux, hh, h2.1], ?_⟩
            have := h2.2
            simp [removeBundleAux, hh]
            omega
    rcases aux g.bundles with h1 | h2
    · exact Or.inl (by simp [PortGroup.remove_bundle, h1])
    · exact Or.inr ⟨by simp [PortGroup.remove_bundle, h2.1],
        by simpa [PortGroup.remove_bundle] using h2.2⟩

/-- Counterexample for C5 as frozen: `remove_duplicates` on a group holding
a covered record erases it — a mutation — yet fires no "changed"
notification at all, where the claim demands exactly one. -/
theorem C5_counterexample :
    (PortGroup.remove_duplicates exGroupHW).1.bundles = [exRecBig] ∧
    (PortGroup.remove_duplicates exGroupHW).1.bundles ≠ exGroupHW.bundles ∧
    (PortGroup.remove_duplicates exGroupHW).2 = [] := by
  refine ⟨by decide, by decide, rfl⟩

/-- C9: `only_bundle` returns a bundle only under the precondition that the
group holds exactly one record — with zero or two-or-more records it
signals the assertion failure (modelled `none`) instead of returning a
value — and under the precondition it returns the single member bundle. -/
theorem C9_only_bundle :
    (∀ g : PGState, g.bundles.length ≠ 1 → PortGroup.only_bundle g = none) ∧
    (∀ (nm : String) (r : BundleRecord),
      PortGroup.only_bundle ⟨nm, [r]⟩ = some r.bundle) := by
  constructor
  · intro g h
    obtain ⟨nm, bl⟩ := g
    rcases bl with _ | ⟨r, _ | ⟨r2, t⟩⟩
    · rfl
    · exact absurd rfl h
    · rfl
  · intro nm r
    rfl

lemma runSigOps_suspended (ops : List SigOp) :
    ∀ s : SigState, s.suspended = true →
      runSigOps s ops =
        (⟨true, s.pending_change || ops.any isEmitChanged,
          lastBundleChange ops s.pending_bundle_change⟩, []) := by
  induction ops with
  | nil =>
    intro s h
    obtain ⟨su, pc, pbc⟩ := s
    subst h
    simp [runSigOps, lastBundleChange]
  | cons op ops ih =>
    intro s h
    cases op with
    | emitChanged =>
      have hop : applySigOp s .emitChanged = ({ s with pending_change := true }, []) := by
        simp [applySigOp, PortGroupList.emit_changed, h]
      have hsusp : ({ s with pending_change := true } : SigState).suspended = true := h
      simp only [runSigOps, hop, ih _ hsusp, List.nil_append, List.any_cons, isEmitChanged]
      simp [lastBundleChange]
    | emitBundleChanged c =>
      have hop : applySigOp s (.emitBundleChanged c) =
          ({ s with pending_bundle_change := c }, []) := by
        simp [applySigOp, PortGroupList.emit_bundle_changed, h]
      have hsusp : ({ s with pending_bundle_change := c } : SigState).suspended = true := h
      simp only [runSigOps, hop, ih _ hsusp, List.nil_append, List.any_cons, isEmitChanged]
      simp [lastBundleChange]

/-- C3: while a `PortGroupList` is suspended, any number of mutations fire
no notification; they only set the single pending "changed" flag and keep
the latest "bundle changed" payload (earlier payloads overwritten, not
queued).  The following `resume_signals` fires each pending notification at
most once — generic "changed" first, then "bundle changed" — so e.g. three
mutations during suspension yield exactly one "changed"; then the
suspension state is cleared. -/
theorem C3_suspend_coalesce (s : SigState) (ops : List SigOp)
    (h : s.suspended = true) : C3Concl s ops := by
  have hrun := runSigOps_suspended ops s h
  unfold C3Concl
  rw [hrun]
  refine ⟨rfl, rfl, rfl, rfl, rfl, ?_, ?_, rfl⟩
  · by_cases hp : (s.pending_change || ops.any isEmitChanged) = true
    · by_cases hb : lastBundleChange ops s.pending_bundle_change ≠ 0
      · simp [PortGroupList.resume_signals, hp, hb, countChanged]
      · simp [PortGroupList.resume_signals, hp, hb, countChanged]
    · by_cases hb : lastBundleChange ops s.pending_bundle_change ≠ 0
      · simp [PortGroupList.resume_signals, hp, hb, countChanged]
      · simp [PortGroupList.resume_signals, hp, hb, countChanged]
  · intro hany
    have hp : (s.pending_change || ops.any isEmitChanged) = true := by
      simp [hany]
    by_cases hb : lastBundleChange ops s.pending_bundle_change ≠ 0
    · simp [PortGroupList.resume_signals, hp, hb, countChanged]
    · simp [PortGroupList.resume_signals, hp, hb, countChanged]

/-- Witness for C3: suspended fresh state, three mutations. -/
theorem C3_witness :
    (⟨true, false, 0⟩ : SigState).suspended = true ∧
    C3Concl ⟨true, false, 0⟩ [SigOp.emitChanged, SigOp.emitChanged, SigOp.emitChanged] :=
  ⟨rfl, C3_suspend_coalesce ⟨true, false, 0⟩
    [SigOp.emitChanged, SigOp.emitChanged, SigOp.emitChanged] rfl⟩

/-- C6: `gather` with a null session produces an empty group list — no
groups, no bundles, `empty()` true — and performs no notification side
effect beyond the initial clear (one "changed" when not suspended, none
when suspended). -/
theorem C6_gather_null_session (st : PGLState) (env : Env) (ty : Option DataType)
    (inputs allow_dups use_session_bundles : Bool) :
    (PortGroupList.gather st none env ty inputs allow_dups use_session_bundles).1.groups
        = [] ∧
    PortGroupList.empty
        (PortGroupList.gather st none env ty inputs allow_dups use_session_bundles).1
      = true ∧
    PortGroupList.bundles
        (PortGroupList.gather st none env ty inputs allow_dups use_session_bundles).1
      = [] ∧
    (PortGroupList.gather st none env ty inputs allow_dups use_session_bundles).2 =
      (if st.sig.suspended then [] else [PGEvent.changed]) := by
  by_cases h : st.sig.suspended = true
  · simp [PortGroupList.gather, PortGroupList.clear, PortGroupList.emit_changed,
      PortGroupList.empty, PortGroupList.bundles, h]
  · simp [PortGroupList.gather, PortGroupList.clear, PortGroupList.emit_changed,
      PortGroupList.empty, PortGroupList.bundles, h]

lemma countChanged_append (a b : List PGEvent) :
    countChanged (a ++ b) = countChanged a + countChanged b := by
  simp [countChanged, List.countP_append]

lemma countChanged_replicate (n : Nat) :
    countChanged (List.replicate n PGEvent.changed) = n := by
  induction n with
  | zero => rfl
  | succ n ih => simp [List.replicate_succ, countChanged, List.countP_cons] at ih ⊢; omega

lemma gather_fold (gl : List PGState) :
    ∀ (st : PGLState) (e0 : List PGEvent), st.sig.suspended = false →
      (gl.foldl gatherStep (st, e0)).1.groups =
          st.groups ++ gl.filter (fun g => !g.bundles.isEmpty) ∧
      (gl.foldl gatherStep (st, e0)).1.sig = st.sig ∧
      (gl.foldl gatherStep (st, e0)).2 =
        e0 ++ List.replicate (gl.countP (fun g => !g.bundles.isEmpty)) PGEvent.changed := by
  induction gl with
  | nil =>
    intro st e0 h
    simp
  | cons g gl ih =>
    intro st e0 h
    by_cases hg : g.bundles.isEmpty = true
    · have hstep : gatherStep (st, e0) g = (st, e0) := by
        simp [gatherStep, PortGroupList.add_group_if_not_empty, hg]
      rw [List.foldl_cons, hstep]
      have hr := ih st e0 h
      refine ⟨?_, hr.2.1, ?_⟩
      · rw [hr.1]
        simp [List.filter_cons, hg]
      · rw [hr.2.2]
        simp [List.countP_cons, hg]
    · have hstep : gatherStep (st, e0) g =
          (⟨st.groups ++ [g], st.sig⟩, e0 ++ [PGEvent.changed]) := by
        simp [gatherStep, PortGroupList.add_group_if_not_empty, hg,
          PortGroupList.add_group, PortGroupList.emit_changed, h]
      rw [List.foldl_cons, hstep]
      have hr := ih ⟨st.groups ++ [g], st.sig⟩ (e0 ++ [PGEvent.changed]) h
      refine ⟨?_, hr.2.1, ?_⟩
      · rw [hr.1]
        simp [List.filter_cons, hg, List.append_assoc]
      · rw [hr.2.2]
        simp [List.countP_cons, hg, List.replicate_succ, List.append_assoc]

/-- C4 (amended): a single non-suspended `gather` with a non-null session
fires `2 + G` "changed" notifications — one from the initial clear, one per
non-empty group appended, one final — never exactly one; the resulting
group list is exactly the non-empty groups in their fixed order (and when
the requested type matches nothing, the Program/Misc group still receives a
synthesized Sync or LTC bundle, so the list is non-empty and three
"changed" fire — see the counterexample and witness instances). -/
theorem C4_gather_changed_count (st : PGLState) (s : SessionModel) (env : Env)
    (ty : Option DataType) (inputs allow_dups use_session_bundles : Bool)
    (h : st.sig.suspended = false) :
    C4Concl st s env ty inputs allow_dups use_session_bundles := by
  have hc : PortGroupList.clear st = (⟨[], st.sig⟩, [PGEvent.changed]) := by
    simp [PortGroupList.clear, PortGroupList.emit_changed, h]
  have hf := gather_fold
    (gather_groups s env ty inputs allow_dups use_session_bundles).toList
    ⟨[], st.sig⟩ [] h
  have hemit : PortGroupList.emit_changed st.sig = (st.sig, [PGEvent.changed]) := by
    simp [PortGroupList.emit_changed, h]
  unfold C4Concl
  simp only [PortGroupList.gather, hc]
  rw [hf.2.1, hemit]
  refine ⟨?_, ?_, rfl⟩
  · rw [countChanged_append, countChanged_append, hf.2.2]
    simp only [List.nil_append]
    rw [countChanged_replicate]
    simp [countChanged, List.countP_cons, List.countP_nil]
    omega
  · rw [hf.1]
    simp

/-- Witness for C4 (amended) at the empty session and environment,
requesting audio inputs: the type matches nothing, yet the count formula
gives `2 + 1` (the Program/Misc group is non-empty). -/
theorem C4_witness :
    st0.sig.suspended = false ∧
    C4Concl st0 sessEmpty envEmpty (some DataType.Audio) true false false :=
  ⟨rfl, C4_gather_changed_count st0 sessEmpty envEmpty (some DataType.Audio)
    true false false rfl⟩

/-- Counterexample for C4 as frozen: a non-suspended `gather` with a
non-null session whose requested type (audio inputs) matches nothing in any
source fires three "changed" notifications — not one — and the resulting
list is not empty (the Program/Misc group holds the synthesized empty
"Sync" bundle). -/
theorem C4_counterexample :
    countChanged (PortGroupList.gather st0 (some sessEmpty) envEmpty
        (some DataType.Audio) true false false).2 = 3 ∧
    countChanged (PortGroupList.gather st0 (some sessEmpty) envEmpty
        (some DataType.Audio) true false false).2 ≠ 1 ∧
    (PortGroupList.gather st0 (some sessEmpty) envEmpty
        (some DataType.Audio) true false false).1.groups ≠ [] ∧
    PortGroupList.empty (PortGroupList.gather st0 (some sessEmpty) envEmpty
        (some DataType.Audio) true false false).1 = false := by
  refine ⟨by decide, by decide, by decide, by decide⟩

lemma mem_rioInsert (x y : RouteIOs) :
    ∀ l : List RouteIOs, y ∈ rioInsert x l ↔ y = x ∨ y ∈ l := by
  intro l
  induction l with
  | nil => simp [rioInsert]
  | cons z zs ih =>
    by_cases h : x.route.order < z.route.order
    · simp [rioInsert, h]
    · simp [rioInsert, h, ih]
      tauto

lemma mem_sort_route_ios (y : RouteIOs) :
    ∀ l : List RouteIOs, y ∈ sort_route_ios l ↔ y ∈ l := by
  intro l
  induction l with
  | nil => simp [sort_route_ios]
  | cons z zs ih =>
    simp only [sort_route_ios, List.foldr_cons] at ih ⊢
    rw [mem_rioInsert]
    simp [ih]

lemma routeScan_inputs_facts (s : SessionModel) (rio : RouteIOs)
    (h : rio ∈ routeScan s true) :
    rio.route ∈ s.routes ∧ rio.route.isMonitor = false ∧
      rio.ios = collect_route_ios rio.route true := by
  obtain ⟨r, hr, he⟩ := List.mem_filterMap.mp h
  by_cases hm : r.isMonitor = true
  · simp [hm] at he
  · have hm' : r.isMonitor = false := by
      cases hmm : r.isMonitor
      · rfl
      · exact absurd hmm hm
    simp [hm'] at he
    subst he
    exact ⟨hr, hm', rfl⟩

lemma add_bundle_internal_mem (g : PGState) (b : Bundle) (ior : Option Nat)
    (hc : Bool) (c : Nat) (ad : Bool) (rec : BundleRecord)
    (h : rec ∈ (PortGroup.add_bundle_internal g b ior hc c ad).1.bundles) :
    rec ∈ g.bundles ∨ rec.bundle = b := by
  by_cases hcond : (!ad && g.bundles.any fun r => b.has_same_ports r.bundle) = true
  · simp [PortGroup.add_bundle_internal, hcond] at h
    exact Or.inl h
  · simp [PortGroup.add_bundle_internal, hcond] at h
    rcases h with h | h
    · exact Or.inl h
    · subst h
      exact Or.inr rfl

lemma ioStep_mem (ty : Option DataType) (rio : RouteIOs) (g : PGState) (x : IOrec)
    (rec : BundleRecord) (h : rec ∈ (ioStep ty rio g x).bundles) :
    rec ∈ g.bundles ∨ rec.bundle = x.bundle := by
  unfold ioStep at h
  by_cases ht : typeMatch ty x.bundle = true
  · simp only [ht, if_pos] at h
    cases hc : rio.route.tvColor with
    | none =>
      rw [hc] at h
      exact add_bundle_internal_mem _ _ _ _ _ _ _ h
    | some c =>
      rw [hc] at h
      exact add_bundle_internal_mem _ _ _ _ _ _ _ h
  · simp only [ht] at h
    simp at h
    exact Or.inl h

lemma foldl_ioStep_mem (ty : Option DataType) (rio : RouteIOs) :
    ∀ (l : List IOrec) (g : PGState) (rec : BundleRecord),
      rec ∈ (l.foldl (ioStep ty rio) g).bundles →
      rec ∈ g.bundles ∨ ∃ x ∈ l, rec.bundle = x.bundle := by
  intro l
  induction l with
  | nil =>
    intro g rec h
    exact Or.inl h
  | cons x xs ih =>
    intro g rec h
    rw [List.foldl_cons] at h
    rcases ih (ioStep ty rio g x) rec h with h1 | ⟨y, hy, hb⟩
    · rcases ioStep_mem ty rio g x rec h1 with h2 | h2
      · exact Or.inl h2
      · exact Or.inr ⟨x, List.mem_cons_self _ _, h2⟩
    · exact Or.inr ⟨y, List.mem_cons_of_mem _ hy, hb⟩

lemma routeStep_mem (ty : Option DataType) (inputs : Bool) (acc : RPAcc)
    (rio : RouteIOs) (rec : BundleRecord)
    (h : rec ∈ (routeStep ty inputs acc rio).track.bundles ∨
         rec ∈ (routeStep ty inputs acc rio).bus.bundles) :
    (rec ∈ acc.track.bundles ∨ rec ∈ acc.bus.bundles) ∨
      ∃ x ∈ rio.ios, rec.bundle = x.bundle := by
  unfold routeStep at h
  by_cases hT : rio.route.isTrack = true
  · simp only [hT, if_pos] at h
    rcases h with h | h
    · rcases foldl_ioStep_mem ty rio rio.ios acc.track rec h with h1 | h1
      · exact Or.inl (Or.inl h1)
      · exact Or.inr h1
    · exact Or.inl (Or.inr h)
  · simp only [hT] at h
    simp at h
    rcases h with h | h
    · exact Or.inl (Or.inl h)
    · rcases foldl_ioStep_mem ty rio rio.ios acc.bus rec h with h1 | h1
      · exact Or.inl (Or.inr h1)
      · exact Or.inr h1

lemma routeFold_mem (ty : Option DataType) (inputs : Bool) :
    ∀ (rios : List RouteIOs) (acc : RPAcc) (rec : BundleRecord),
      (rec ∈ (rios.foldl (routeStep ty inputs) acc).track.bundles ∨
       rec ∈ (rios.foldl (routeStep ty inputs) acc).bus.bundles) →
      (rec ∈ acc.track.bundles ∨ rec ∈ acc.bus.bundles) ∨
        ∃ rio ∈ rios, ∃ x ∈ rio.ios, rec.bundle = x.bundle := by
  intro rios
  induction rios with
  | nil =>
    intro acc rec h
    exact Or.inl h
  | cons rio rios ih =>
    intro acc rec h
    rw [List.foldl_cons] at h
    rcases ih (routeStep ty inputs acc rio) rec h with h1 | ⟨rio2, hr2, hx⟩
    · rcases routeStep_mem ty inputs acc rio rec h1 with h2 | h2
      · exact Or.inl h2
      · exact Or.inr ⟨rio, List.mem_cons_self _ _, h2⟩
    · exact Or.inr ⟨rio2, List.mem_cons_of_mem _ hr2, hx⟩

lemma gather_groups_track (s : SessionModel) (env : Env) (ty : Option DataType)
    (inputs allow_dups use_session_bundles : Bool) :
    (gather_groups s env ty inputs allow_dups use_session_bundles).track =
      (routePhase s ty inputs).track := rfl

lemma gather_groups_bus (s : SessionModel) (env : Env) (ty : Option DataType)
    (inputs allow_dups use_session_bundles : Bool) :
    (gather_groups s env ty inputs allow_dups use_session_bundles).bus =
      (routePhase s ty inputs).bus := rfl

/-- C7: on the input side every monitor-flagged route is skipped by the
route scan of `gather`, so a monitor route contributes no input bundle to
the "Tracks" or "Busses" groups: every record of those groups stems from a
non-monitor route's collected IOs. -/
theorem C7_monitor_excluded (s : SessionModel) (env : Env) (ty : Option DataType)
    (allow_dups use_session_bundles : Bool) :
    C7Concl s env ty allow_dups use_session_bundles := by
  constructor
  · intro rio hrio
    exact (routeScan_inputs_facts s rio hrio).2.1
  · intro rec hrec
    rw [gather_groups_track, gather_groups_bus] at hrec
    have hsplit := List.mem_append.mp hrec
    unfold routePhase at hsplit
    have h2 := routeFold_mem ty true (sort_route_ios (routeScan s true))
      ⟨⟨"Busses", []⟩, ⟨"Tracks", []⟩, ⟨"Sidechains", []⟩⟩ rec hsplit
    rcases h2 with h3 | ⟨rio, hrio, x, hx, hb⟩
    · simp at h3
    · have hmem : rio ∈ routeScan s true := (mem_sort_route_ios rio _).mp hrio
      obtain ⟨hr, hmon, hios⟩ := routeScan_inputs_facts s rio hmem
      refine ⟨rio.route, hr, hmon, x, ?_, hb⟩
      rw [← hios]
      exact hx

lemma forwardEvents_unsusp (evs : List PGEvent) :
    ∀ s : SigState, s.suspended = false → forwardEvents s evs = (s, evs) := by
  induction evs with
  | nil =>
    intro s h
    rfl
  | cons e t ih =>
    intro s h
    cases e with
    | changed =>
      simp [forwardEvents, PortGroupList.emit_changed, h, ih s h]
    | bundleChanged c =>
      simp [forwardEvents, PortGroupList.emit_bundle_changed, h, ih s h]

lemma pglRemove_fold (b : Bundle) :
    ∀ (gs : List PGState) (acc1 : List PGState) (s : SigState) (e : List PGEvent),
      s.suspended = false →
      gs.foldl (pglRemoveStep b) (acc1, s, e) =
        (acc1 ++ gs.map (fun g => (PortGroup.remove_bundle g b).1), s,
         e ++ (gs.map (fun g => (PortGroup.remove_bundle g b).2)).flatten) := by
  intro gs
  induction gs with
  | nil =>
    intro acc1 s e h
    simp
  | cons g gs ih =>
    intro acc1 s e h
    have hstep : pglRemoveStep b (acc1, s, e) g =
        (acc1 ++ [(PortGroup.remove_bundle g b).1], s,
         e ++ (PortGroup.remove_bundle g b).2) := by
      simp [pglRemoveStep, forwardEvents_unsusp _ s h]
    rw [List.foldl_cons, hstep, ih _ s _ h]
    simp [List.append_assoc]

/-- C10: `PortGroupList::remove_bundle` forwards the removal to every owned
group and then always ends with a list-level "changed", even when no group
contained the bundle and nothing was removed — unlike
`PortGroup::remove_bundle`, which fires "changed" only when a record was
actually removed. -/
theorem C10_list_remove_always_changed (st : PGLState) (b : Bundle)
    (h : st.sig.suspended = false) : C10Concl st b := by
  have hfold := pglRemove_fold b st.groups [] st.sig [] h
  have hemit : PortGroupList.emit_changed st.sig = (st.sig, [PGEvent.changed]) := by
    simp [PortGroupList.emit_changed, h]
  have hnone : ∀ g : PGState, (∀ rec ∈ g.bundles, rec.bundle.bid ≠ b.bid) →
      PortGroup.remove_bundle g b = (g, []) := by
    intro g hg
    have aux : ∀ l : List BundleRecord, (∀ rec ∈ l, rec.bundle.bid ≠ b.bid) →
        removeBundleAux l b = (l, []) := by
      intro l
      induction l with
      | nil =>
        intro _
        rfl
      | cons r rs ih =>
        intro hl
        have hr : r.bundle.bid ≠ b.bid := hl r (List.mem_cons_self _ _)
        simp [removeBundleAux, hr, ih (fun x hx => hl x (List.mem_cons_of_mem _ hx))]
    have haux := aux g.bundles hg
    simp [PortGroup.remove_bundle, haux]
  unfold C10Concl
  refine ⟨?_, ?_, ?_, hnone⟩
  · simp only [PortGroupList.remove_bundle, hfold]
    simp
  · refine ⟨(st.groups.map (fun g => (PortGroup.remove_bundle g b).2)).flatten, ?_⟩
    simp only [PortGroupList.remove_bundle, hfold, hemit]
    simp
  · intro hall
    have hflat : ∀ gs : List PGState,
        (∀ g ∈ gs, ∀ rec ∈ g.bundles, rec.bundle.bid ≠ b.bid) →
        (gs.map (fun g => (PortGroup.remove_bundle g b).2)).flatten = ([] : List PGEvent) := by
      intro gs
      induction gs with
      | nil =>
        intro _
        rfl
      | cons g gs ih =>
        intro hgs
        have h1 : PortGroup.remove_bundle g b = (g, []) :=
          hnone g (hgs g (List.mem_cons_self _ _))
        simp [h1, ih (fun x hx => hgs x (List.mem_cons_of_mem _ hx))]
    simp only [PortGroupList.remove_bundle, hfold, hemit]
    simp [hflat st.groups hall]

/-- Witness for C10: one connected group, a bundle held by no group — the
groups are forwarded to unchanged and exactly the final list-level
"changed" fires. -/
theorem C10_witness :
    exListState.sig.suspended = false ∧ C10Concl exListState exBundleOther :=
  ⟨rfl, C10_list_remove_always_changed exListState exBundleOther rfl⟩

/-- C8: bundle synthesis from a naturally-sorted port list groups
contiguous runs sharing the prefix up to and including the first separator:
`["a/1","a/2","a/3"]` yields one bundle named "a" with channels "1", "2",
"3" (no engine pretty names); `["a/1","b/1"]` yields bundles "a" and "b"
with one channel each; with `:` as the separator (`["a:1","a:2"]`, not all
names containing `/`) one bundle "a"; and when neither `/` nor `:` occurs
in every name the whole list becomes one bundle. -/
theorem C8_prefix_synthesis (env : Env) (p : List String) (ty : DataType)
    (ins ad : Bool) (nm : String)
    (h1 : (p.all fun s => strContainsChar s '/') = false)
    (h2 : (p.all fun s => strContainsChar s ':') = false) :
    add_bundles_for_ports envEmpty ["a/1", "a/2", "a/3"] DataType.Audio false false
        ⟨"External", []⟩ = c8group1 ∧
    add_bundles_for_ports envEmpty ["a/1", "b/1"] DataType.Audio false false
        ⟨"External", []⟩ = c8group2 ∧
    add_bundles_for_ports envEmpty ["a:1", "a:2"] DataType.Audio false false
        ⟨"Hardware", []⟩ = c8group3 ∧
    add_bundles_for_ports env p ty ins ad ⟨nm, []⟩ =
      ⟨nm, [⟨make_bundle_from_ports env p ty ins "", none, 0, false, true⟩]⟩ := by
  refine ⟨by decide, by decide, by decide, ?_⟩
  simp only [add_bundles_for_ports]
  rw [h1, h2]
  simp [PortGroup.add_bundle, PortGroup.add_bundle_internal]

/-- Witness for C8 at `["x","y"]`: neither separator occurs in every name,
so the whole list becomes one synthetic bundle. -/
theorem C8_witness :
    ((["x", "y"].all fun s => strContainsChar s '/') = false) ∧
    ((["x", "y"].all fun s => strContainsChar s ':') = false) ∧
    (add_bundles_for_ports envEmpty ["a/1", "a/2", "a/3"] DataType.Audio false false
        ⟨"External", []⟩ = c8group1 ∧
     add_bundles_for_ports envEmpty ["a/1", "b/1"] DataType.Audio false false
        ⟨"External", []⟩ = c8group2 ∧
     add_bundles_for_ports envEmpty ["a:1", "a:2"] DataType.Audio false false
        ⟨"Hardware", []⟩ = c8group3 ∧
     add_bundles_for_ports envEmpty ["x", "y"] DataType.Audio false false
        ⟨"External", []⟩ =
       ⟨"External", [⟨make_bundle_from_ports envEmpty ["x", "y"] DataType.Audio false "",
         none, 0, false, true⟩]⟩) :=
  ⟨by decide, by decide,
   C8_prefix_synthesis envEmpty ["x", "y"] DataType.Audio false false "External"
     (by decide) (by decide)⟩
